import Mathlib

/-!
Verification development for the EDA-narrator / data-quality-scoring pipeline.

The Python sources (`src/loader.py`, `src/eda_analyzer.py`, `src/quality_scorer.py`,
`src/narrator.py`, `src/orchestrator.py`) are shallowly embedded below:
Python dicts become ordered association lists keyed by strings, Python numbers
become exact rationals, methods that mutate `self` become functions returning
the updated state, and methods that may raise become `Except`-valued functions
(the raised message in the `error` case, with the pre-call state where the
claim concerns post-failure state).
-/

set_option autoImplicit false

namespace EDAQuality

/-- Python-style ordered dictionary: an association list keyed by strings.
Keys inserted by the embedded code are unique, as in a Python dict. -/
abbrev Dict (α : Type) := List (String × α)

namespace Dict

variable {α : Type}

/-- Value stored under key `k` (first match), `none` when absent. -/
def get? (d : Dict α) (k : String) : Option α :=
  match d with
  | [] => none
  | (k₁, v) :: rest => if k₁ = k then some v else get? rest k

/-- Python `d.get(k, v0)`. -/
def getD (d : Dict α) (k : String) (v0 : α) : α := (d.get? k).getD v0

/-- Python `k in d`. -/
def hasKey (d : Dict α) (k : String) : Bool := (d.get? k).isSome

/-- Python `d.keys()`, in insertion order. -/
def keys (d : Dict α) : List String := d.map Prod.fst

/-- Python `d.values()`, in insertion order. -/
def values (d : Dict α) : List α := d.map Prod.snd

/-- Python `d[k] = v`: overwrite in place when the key exists, else append. -/
def insert (d : Dict α) (k : String) (v : α) : Dict α :=
  match d with
  | [] => [(k, v)]
  | (k₁, v₁) :: rest => if k₁ = k then (k, v) :: rest else (k₁, v₁) :: insert rest k v

/-- Python `{**a, **b}`: key union with the entries of `b` overriding those of `a`. -/
def merge (a b : Dict α) : Dict α :=
  b.foldl (fun acc kv => acc.insert kv.1 kv.2) a

end Dict

/-! ## Decimal rendering (Python `f"{x:.2f}"` and `str`) -/

/-- The decimal digit character for `n % 10`. -/
def digitChar (n : ℕ) : Char := Char.ofNat (48 + n % 10)

/-- Fuel-driven most-significant-first digit accumulation. -/
def natDigitsAux : ℕ → ℕ → List Char → List Char
  | 0, _, acc => acc
  | fuel + 1, n, acc =>
    if n < 10 then digitChar n :: acc
    else natDigitsAux fuel (n / 10) (digitChar (n % 10) :: acc)

/-- Decimal rendering of a natural number. -/
def natToStr (n : ℕ) : String := String.mk (natDigitsAux (n + 1) n [])

/-- Decimal rendering of an integer. -/
def intToStr (i : ℤ) : String :=
  if i < 0 then "-" ++ natToStr i.natAbs else natToStr i.natAbs

/-- Floor of a rational, computed on the numerator and denominator. -/
def qFloor (q : ℚ) : ℤ := Int.fdiv q.num q.den

/-- Round to the nearest integer, ties to the even integer (the rounding used
by Python `format` on exactly representable values). -/
def roundHalfEven (q : ℚ) : ℤ :=
  let n := qFloor q
  let frac := q - (n : ℚ)
  if frac < 1 / 2 then n
  else if (1 : ℚ) / 2 < frac then n + 1
  else if n % 2 = 0 then n else n + 1

/-- Left-pad a string with zeros up to `len` characters. -/
def padZeros (s : String) (len : ℕ) : String :=
  String.mk (List.replicate (len - s.length) '0') ++ s

/-- Python `f"{q:.prec f}"`: fixed-point rendering with `prec` decimals. -/
def fmtDec (prec : ℕ) (q : ℚ) : String :=
  let p : ℕ := 10 ^ prec
  let m := roundHalfEven (q * (p : ℚ))
  let sign := if m < 0 then "-" else ""
  let a := m.natAbs
  sign ++ natToStr (a / p) ++ "." ++ padZeros (natToStr (a % p)) prec

/-- Python `f"{q:.2f}"`. -/
def fmt2 (q : ℚ) : String := fmtDec 2 q

/-- Rendering of a rational where Python would render an int or float with
`str`; exact floats are not representable here, so integral values render as
integers and the rest as `num/den`. No claim depends on these substrings. -/
def qStr (q : ℚ) : String :=
  if q.den = 1 then intToStr q.num else intToStr q.num ++ "/" ++ natToStr q.den

/-- Python `max(a, b)` on rationals, written so the kernel can evaluate it. -/
def pyMax (a b : ℚ) : ℚ := if a < b then b else a

/-- Python `max(a, b)` on integers, written so the kernel can evaluate it. -/
def pyMaxI (a b : ℤ) : ℤ := if a < b then b else a

/-! ## EDA results (`src/quality_scorer.py`, `src/narrator.py` inputs) -/

/-- One per-column entry of the `missing` EDA mapping: the missing count and
the missing percentage (Python reads `info['missing']` and `info['pct']`
unconditionally, so both fields are always present). -/
structure MissingInfo where
  missing : ℚ
  pct : ℚ
deriving DecidableEq

/-- The EDA-results mapping. Every read in the sources goes through
`.get(key, default)`, so an absent key is observationally its default and is
modelled by it: `missing`/`outliers`/`summary` default to the empty dict and
`duplicates` to `0`. -/
structure EDAResults where
  summary : Dict (Dict ℚ)
  missing : Dict MissingInfo
  duplicates : ℚ
  outliers : Dict ℚ
deriving DecidableEq

/-! ## QualityScorer (`src/quality_scorer.py`) -/

/-- The state of a `QualityScorer` object: `_eda`, `_df_len`, `_weights`, `scores`. -/
structure QualityScorer where
  eda : EDAResults
  dfLen : ℤ
  weights : Dict ℚ
  scores : Dict ℚ
deriving DecidableEq

namespace QualityScorer

/-- `QualityScorer.DEFAULT_WEIGHTS`. -/
def DEFAULT_WEIGHTS : Dict ℚ :=
  [("missing", 35 / 100), ("duplicates", 15 / 100),
   ("outliers", 25 / 100), ("balance", 25 / 100)]

/-- `QualityScorer._validate_weights`: checks the key set, then the sum
bounds, then non-negativity, raising `ValueError` (modelled as
`Except.error`) on the first failure. -/
def validateWeights (w : Dict ℚ) : Except String Unit :=
  let required := DEFAULT_WEIGHTS.keys
  if w.keys.toFinset ≠ required.toFinset then
    let missingKs := required.filter (fun k => ¬ k ∈ w.keys)
    let extraKs := w.keys.filter (fun k => ¬ k ∈ required)
    Except.error ("Invalid weight keys. Missing keys: " ++
      String.intercalate ", " missingKs ++ " Extra keys: " ++
      String.intercalate ", " extraKs)
  else
    let weightSum := w.values.sum
    if ¬ (99 / 100 ≤ weightSum ∧ weightSum ≤ 101 / 100) then
      Except.error ("Weights must sum to 1.0, but got " ++ fmtDec 4 weightSum)
    else if w.values.any (fun v => v < 0) then
      Except.error "All weights must be non-negative."
    else Except.ok ()

/-- `QualityScorer.__init__`: stores the EDA results and the row count,
starts with an empty scores dict, and either copies the defaults (when no
weights are given) or validates and copies the supplied weights. -/
def make (eda : EDAResults) (dfLen : ℤ) (weights : Option (Dict ℚ)) :
    Except String QualityScorer :=
  match weights with
  | none => Except.ok ⟨eda, dfLen, DEFAULT_WEIGHTS, []⟩
  | some w =>
    match validateWeights w with
    | Except.error e => Except.error e
    | Except.ok _ => Except.ok ⟨eda, dfLen, w, []⟩

/-- `QualityScorer.get_weights` (a `.copy()` is equality here). -/
def getWeights (s : QualityScorer) : Dict ℚ := s.weights

/-- `QualityScorer.missing_score`: `max(0, 100 - np.mean(pct))` over the
`pct` fields of `missing`, with `[0]` when `missing` is empty or absent;
stores the result under `'missing'` and returns it. -/
def missingScore (s : QualityScorer) : ℚ × QualityScorer :=
  let m := s.eda.missing
  let pcts : List ℚ := if m.isEmpty then [0] else m.values.map MissingInfo.pct
  let sc := pyMax 0 (100 - pcts.sum / (pcts.length : ℚ))
  (sc, { s with scores := s.scores.insert "missing" sc })

/-- `QualityScorer.duplicates_score`: `pct = dups / max(1, df_len) * 100`,
score `max(0, 100 - pct * 2)`, stored under `'duplicates'`. -/
def duplicatesScore (s : QualityScorer) : ℚ × QualityScorer :=
  let dups := s.eda.duplicates
  let pct := dups / ((pyMaxI 1 s.dfLen : ℤ) : ℚ) * 100
  let sc := pyMax 0 (100 - pct * 2)
  (sc, { s with scores := s.scores.insert "duplicates" sc })

/-- `QualityScorer.outliers_score`: total outliers over `max(1, df_len)` as a
percentage, score `max(0, 100 - pct * 1.5)`, stored under `'outliers'`. -/
def outliersScore (s : QualityScorer) : ℚ × QualityScorer :=
  let total := s.eda.outliers.values.sum
  let pct := total / ((pyMaxI 1 s.dfLen : ℤ) : ℚ) * 100
  let sc := pyMax 0 (100 - pct * (3 / 2))
  (sc, { s with scores := s.scores.insert "outliers" sc })

/-- `QualityScorer.balance_score`: the fixed placeholder `90.0`. -/
def balanceScore (s : QualityScorer) : ℚ × QualityScorer :=
  (90, { s with scores := s.scores.insert "balance" 90 })

/-- `QualityScorer.overall_score`: computes any component score not yet in
`scores`, then stores `sum(scores[m] * weights[m] for m in weights.keys())`
under `'overall'` and returns it. -/
def overallScore (s : QualityScorer) : ℚ × QualityScorer :=
  let s₁ := if s.scores.hasKey "missing" then s else s.missingScore.2
  let s₂ := if s₁.scores.hasKey "duplicates" then s₁ else s₁.duplicatesScore.2
  let s₃ := if s₂.scores.hasKey "outliers" then s₂ else s₂.outliersScore.2
  let s₄ := if s₃.scores.hasKey "balance" then s₃ else s₃.balanceScore.2
  let ov := (s₄.weights.keys.map (fun m => s₄.scores.getD m 0 * s₄.weights.getD m 0)).sum
  (ov, { s₄ with scores := s₄.scores.insert "overall" ov })

/-- `QualityScorer.set_weights`: validate (raising on failure with the state
untouched), install the new weights, and recompute the overall score when one
was already present. The second component is the raised error, if any. -/
def setWeights (s : QualityScorer) (w : Dict ℚ) : QualityScorer × Except String Unit :=
  match validateWeights w with
  | Except.error e => (s, Except.error e)
  | Except.ok _ =>
    let s₁ := { s with weights := w }
    if s₁.scores.hasKey "overall" then (s₁.overallScore.2, Except.ok ())
    else (s₁, Except.ok ())

end QualityScorer

/-! ## Narrator (`src/narrator.py`) -/

namespace Narrator

/-- The `summary` loop of `Narrator.generate`: one sentence per column whose
metrics contain `mean`; Python then indexes `metrics['std']` directly, which
raises `KeyError` when absent — modelled as the `error` case. -/
def summaryTexts : Dict (Dict ℚ) → Except String (List String)
  | [] => Except.ok []
  | (col, metrics) :: rest =>
    match metrics.get? "mean" with
    | none => summaryTexts rest
    | some m =>
      match metrics.get? "std" with
      | none => Except.error "KeyError: std"
      | some sd =>
        (summaryTexts rest).map
          (fun r => ("Column '" ++ col ++ "' has mean " ++ fmt2 m ++
            " and std " ++ fmt2 sd ++ ".") :: r)

/-- The `missing` loop of `Narrator.generate`: one sentence per column with a
positive missing count. -/
def missingTexts : Dict MissingInfo → List String
  | [] => []
  | (col, info) :: rest =>
    if 0 < info.missing then
      ("Column '" ++ col ++ "' has " ++ qStr info.missing ++ " missing (" ++
        qStr info.pct ++ "%).") :: missingTexts rest
    else missingTexts rest

/-- The `outliers` loop of `Narrator.generate`: one sentence per column with a
positive outlier count. -/
def outlierTexts : Dict ℚ → List String
  | [] => []
  | (col, n) :: rest =>
    if 0 < n then
      ("Column '" ++ col ++ "' has " ++ qStr n ++ " outliers.") :: outlierTexts rest
    else outlierTexts rest

/-- The verdict conditional of `Narrator.generate`. -/
def verdictOf (overall : ℚ) : String :=
  if 90 ≤ overall then "Excellent"
  else if 75 ≤ overall then "Good"
  else if 50 ≤ overall then "Fair"
  else "Poor"

/-- The closing sentence of `Narrator.generate`. -/
def closingText (overall : ℚ) : String :=
  "Overall data quality: " ++ fmt2 overall ++ "/100 — " ++ verdictOf overall ++ "."

/-- `Narrator.generate`: summary sentences, then missing sentences, then
outlier sentences, then the single closing sentence built from
`scores.get('overall', 0)`. -/
def generate (eda : EDAResults) (scores : Dict ℚ) : Except String (List String) :=
  match summaryTexts eda.summary with
  | Except.error e => Except.error e
  | Except.ok s =>
    Except.ok (s ++ missingTexts eda.missing ++ outlierTexts eda.outliers ++
      [closingText (scores.getD "overall" 0)])

end Narrator

/-! ## DataLoader (`src/loader.py`) -/

/-- The state of a `DataLoader` over an abstract dataframe type `DF`:
`path`, `sample_n`, and the cache `df` (`None` until `load`). -/
structure DataLoader (DF : Type) where
  path : String
  sampleN : Option ℤ
  df : Option DF

namespace DataLoader

/-- `DataLoader(path)` with the default `sample_n=5`. -/
def make (DF : Type) (path : String) : DataLoader DF := ⟨path, some 5, none⟩

/-- `DataLoader.load`, with `pd.read_csv` supplied as an abstract function of
the path: caches the dataframe and returns it. -/
def load {DF : Type} (readCsv : String → DF) (l : DataLoader DF) :
    DF × DataLoader DF :=
  let d := readCsv l.path
  (d, { l with df := some d })

/-- `DataLoader.peek`, with `DataFrame.head` abstract: a `RuntimeError`
(modelled as `error`) before `load`, else the head of the cached dataframe. -/
def peek {DF α : Type} (head : DF → Option ℤ → α) (l : DataLoader DF) :
    Except String α :=
  match l.df with
  | none => Except.error "Data not loaded yet."
  | some d => Except.ok (head d l.sampleN)

/-- `DataLoader.detect_types`, with `df.dtypes.to_dict()` abstract. -/
def detectTypes {DF : Type} (dtypes : DF → Dict String) (l : DataLoader DF) :
    Except String (Dict String) :=
  match l.df with
  | none => Except.error "Data not loaded yet."
  | some d => Except.ok (dtypes d)

end DataLoader

/-! ## Analyzers and the orchestrator merge
(`src/eda_analyzer.py`, `src/orchestrator.py`) -/

/-- A dataframe column: numeric (`np.number` dtype) or object (strings). -/
inductive ColData where
  | numeric (vals : List ℚ)
  | strings (vals : List String)
deriving DecidableEq

/-- A dataframe: named columns in order. -/
abbrev DataFrame := List (String × ColData)

/-- Whether a column has a numeric dtype. -/
def isNumericCol : ColData → Bool
  | ColData.numeric _ => true
  | ColData.strings _ => false

/-- `df.select_dtypes(include=[np.number])`. -/
def selectNumeric (df : DataFrame) : DataFrame :=
  df.filter (fun c => isNumericCol c.2)

/-- `df.select_dtypes(include=['object'])`. -/
def selectObject (df : DataFrame) : DataFrame :=
  df.filter (fun c => ¬ isNumericCol c.2)

/-- The numeric values of a column (empty for an object column). -/
def numVals : ColData → List ℚ
  | ColData.numeric v => v
  | ColData.strings _ => []

/-- The string values of a column (empty for a numeric column). -/
def strVals : ColData → List String
  | ColData.numeric _ => []
  | ColData.strings v => v

/-- A cell of a pandas `describe().to_dict()` output: numeric statistics or a
string (the `top` value of a categorical description). -/
inductive CellVal where
  | num (q : ℚ)
  | txt (s : String)
deriving DecidableEq

/-- An analyzer `results` mapping: `'summary'` maps each described column to
its per-statistic dict. -/
abbrev AnalyzerResults := Dict (Dict (Dict CellVal))

/-- `NumericAnalyzer.run_all`: describes the numeric-dtype columns and stores
the result under `'summary'`; the per-column statistics function (pandas
`describe`) is abstracted as a parameter, since the claims about merging
depend only on which columns appear. -/
def NumericAnalyzer.runAll (numStats : List ℚ → Dict CellVal) (df : DataFrame) :
    AnalyzerResults :=
  [("summary", (selectNumeric df).map (fun c => (c.1, numStats (numVals c.2))))]

/-- `CategoricalAnalyzer.run_all`: describes the object-dtype columns and
stores the result under `'summary'`; pandas `describe(include='all')` is
abstracted as a parameter. -/
def CategoricalAnalyzer.runAll (catStats : List String → Dict CellVal)
    (df : DataFrame) : AnalyzerResults :=
  [("summary", (selectObject df).map (fun c => (c.1, catStats (strVals c.2))))]

/-- The orchestrator's merge of the two analyzer results
(`{**num_analyzer.run_all(), **cat_analyzer.run_all()}`). -/
def mergedResults (numStats : List ℚ → Dict CellVal)
    (catStats : List String → Dict CellVal) (df : DataFrame) : AnalyzerResults :=
  Dict.merge (NumericAnalyzer.runAll numStats df)
    (CategoricalAnalyzer.runAll catStats df)

/-! ## Definitions written from the spec's words (for refinement claims) -/

/-- The spec's description of `missing_score()`: `max(0, 100 - mean_pct)`
where `mean_pct` is the mean of the `pct` fields across the entries of
`missing`, taken as `0` when `missing` is absent or empty. -/
def missingScoreSpec (eda : EDAResults) : ℚ :=
  let meanPct : ℚ :=
    if eda.missing.isEmpty then 0
    else (eda.missing.values.map MissingInfo.pct).sum / (eda.missing.length : ℚ)
  max 0 (100 - meanPct)

/-- The invalid-weights condition as the spec states it: the key set differs
from the four required names, or the weight sum falls outside [0.99, 1.01],
or some weight is negative. -/
def invalidWeightsSpec (w : Dict ℚ) : Prop :=
  w.keys.toFinset ≠ ({"missing", "duplicates", "outliers", "balance"} : Finset String) ∨
  ¬ (99 / 100 ≤ w.values.sum ∧ w.values.sum ≤ 101 / 100) ∨
  ∃ v ∈ w.values, v < 0

/-! ## Concrete inputs used by witnesses and counterexamples -/

/-- EDA results with missing percentages `[0, 10, 20]` (the spec's test
vector for `missing_score`). -/
def exMissingEda : EDAResults :=
  ⟨[], [("a", ⟨0, 0⟩), ("b", ⟨1, 10⟩), ("c", ⟨2, 20⟩)], 0, []⟩

/-- EDA results with no missing values, no duplicates and no outliers: every
component score except `balance` is exactly 100. -/
def exCleanEda : EDAResults := ⟨[], [], 0, []⟩

/-- A weights dict that passes validation (keys exactly the four, all
non-negative, sum `1.01 ∈ [0.99, 1.01]`) yet pushes the overall score to
`100 * 1.01 = 101`. -/
def exHotWeights : Dict ℚ :=
  [("missing", 101 / 100), ("duplicates", 0), ("outliers", 0), ("balance", 0)]

/-- A scorer state that already holds a computed component score. -/
def exScoredState : QualityScorer :=
  ⟨exMissingEda, 100, QualityScorer.DEFAULT_WEIGHTS, [("missing", 90)]⟩

/-- The message `_validate_weights` produces for an empty weights dict. -/
def exBadKeysMsg : String :=
  "Invalid weight keys. Missing keys: missing, duplicates, outliers, balance Extra keys: "

/-- A scorer state as left by `overall_score()`: all four component scores
and the overall score present. -/
def exOverallState : QualityScorer :=
  ⟨exCleanEda, 1, QualityScorer.DEFAULT_WEIGHTS,
   [("missing", 100), ("duplicates", 100), ("outliers", 100), ("balance", 90),
    ("overall", 195 / 2)]⟩

/-- A dataset with one numeric and one object column. -/
def exDf : DataFrame :=
  [("age", ColData.numeric [1, 2, 3]), ("name", ColData.strings ["x", "y", "x"])]

/-- A concrete stand-in for pandas `describe` on a numeric column. -/
def exNumStats (vals : List ℚ) : Dict CellVal :=
  [("count", CellVal.num vals.length)]

/-- A concrete stand-in for pandas `describe(include='all')` on an object
column. -/
def exCatStats (vals : List String) : Dict CellVal :=
  [("count", CellVal.num vals.length)]

/-- The weighted combination `sum(scores[m] * weights[m] for m in
weights.keys())` that `overall_score()` stores. -/
def weightedTotal (s : QualityScorer) : ℚ :=
  (s.weights.keys.map (fun m => s.scores.getD m 0 * s.weights.getD m 0)).sum

/-- The four component scores a fresh scorer computes on the way to
`overall_score()`, in insertion order. -/
def freshComponents (s : QualityScorer) : Dict ℚ :=
  [("missing", s.missingScore.1), ("duplicates", s.duplicatesScore.1),
   ("outliers", s.outliersScore.1), ("balance", 90)]

/-! ## Dict lemma kit -/

theorem pyMax_eq_max (a b : ℚ) : pyMax a b = max a b := by
  unfold pyMax
  rcases lt_or_ge a b with h | h
  · simp [h, max_eq_right h.le]
  · simp [not_lt.mpr h, max_eq_left h]

theorem pyMaxI_eq_max (a b : ℤ) : pyMaxI a b = max a b := by
  unfold pyMaxI
  rcases lt_or_ge a b with h | h
  · simp [h, max_eq_right h.le]
  · simp [not_lt.mpr h, max_eq_left h]


namespace Dict

theorem get?_insert_self {α : Type} (d : Dict α) (k : String) (v : α) :
    (d.insert k v).get? k = some v := by
  induction d with
  | nil => simp [insert, get?]
  | cons hd tl ih =>
    by_cases h : hd.1 = k
    · simp [insert, get?, h]
    · simp [insert, get?, h, ih]

theorem get?_insert_ne {α : Type} (d : Dict α) (k j : String) (v : α)
    (h : j ≠ k) : (d.insert k v).get? j = d.get? j := by
  induction d with
  | nil => simp [insert, get?, Ne.symm h]
  | cons hd tl ih =>
    by_cases hk : hd.1 = k
    · subst hk
      simp [insert, get?, Ne.symm h]
    · by_cases hj : hd.1 = j
      · simp [insert, get?, hk, hj, Ne.symm h, h]
      · simp [insert, get?, hk, hj, ih]

theorem getD_insert_self {α : Type} (d : Dict α) (k : String) (v v0 : α) :
    (d.insert k v).getD k v0 = v := by
  simp [getD, get?_insert_self]

theorem hasKey_insert_self {α : Type} (d : Dict α) (k : String) (v : α) :
    (d.insert k v).hasKey k = true := by
  simp [hasKey, get?_insert_self]

theorem hasKey_insert_of_hasKey {α : Type} (d : Dict α) (k j : String) (v : α)
    (h : d.hasKey j = true) : (d.insert k v).hasKey j = true := by
  by_cases hj : j = k
  · subst hj; exact hasKey_insert_self d j v
  · simpa [hasKey, get?_insert_ne d k j v hj] using h

/-- Summing `f key * value` over the key list of a dict with unique keys is
summing over the entries themselves. -/
theorem sum_over_keys (d : Dict ℚ) (hnd : d.keys.Nodup) (f : String → ℚ) :
    (d.keys.map (fun m => f m * d.getD m 0)).sum =
      (d.map (fun kv => f kv.1 * kv.2)).sum := by
  induction d with
  | nil => simp [keys]
  | cons e tl ih =>
    simp only [keys, List.map_cons] at hnd ⊢
    have hnotmem : e.1 ∉ tl.map Prod.fst := (List.nodup_cons.mp hnd).1
    have htl : (tl.map Prod.fst).Nodup := (List.nodup_cons.mp hnd).2
    have hself : Dict.getD (e :: tl) e.1 0 = e.2 := by
      simp [getD, get?]
    have hrest : (tl.map Prod.fst).map (fun m => f m * Dict.getD (e :: tl) m 0) =
        (tl.map Prod.fst).map (fun m => f m * Dict.getD tl m 0) := by
      apply List.map_congr_left
      intro m hm
      have hne : e.1 ≠ m := fun he => hnotmem (he ▸ hm)
      simp [getD, get?, hne]
    have ih₂ := ih (by simpa [keys] using htl)
    simp only [keys, List.map_cons] at ih₂
    rw [List.sum_cons, hself, hrest, List.sum_cons, ih₂]

end Dict

/-! Sanity checks on concrete values from the spec's test vectors. -/

example :
    (QualityScorer.missingScore
      ⟨⟨[], [("a", ⟨0, 0⟩), ("b", ⟨1, 10⟩), ("c", ⟨2, 20⟩)], 0, []⟩, 100,
        QualityScorer.DEFAULT_WEIGHTS, []⟩).1 = 90 := by
  simp [QualityScorer.missingScore, Dict.values, pyMax]
  norm_num

example :
    (QualityScorer.duplicatesScore
      ⟨⟨[], [], 10, []⟩, 100, QualityScorer.DEFAULT_WEIGHTS, []⟩).1 = 80 := by
  simp [QualityScorer.duplicatesScore, pyMax, pyMaxI]
  norm_num

example :
    (QualityScorer.outliersScore
      ⟨⟨[], [], 0, [("x", 5)]⟩, 100, QualityScorer.DEFAULT_WEIGHTS, []⟩).1 = 925 / 10 := by
  simp [QualityScorer.outliersScore, Dict.values, pyMax, pyMaxI]
  norm_num

example :
    (QualityScorer.overallScore
      ⟨⟨[], [("a", ⟨0, 0⟩), ("b", ⟨1, 10⟩), ("c", ⟨2, 20⟩)], 10, [("x", 5)]⟩, 100,
        QualityScorer.DEFAULT_WEIGHTS, []⟩).1 = 89125 / 1000 := by
  simp [QualityScorer.overallScore, QualityScorer.missingScore,
    QualityScorer.duplicatesScore, QualityScorer.outliersScore,
    QualityScorer.balanceScore, QualityScorer.DEFAULT_WEIGHTS,
    Dict.values, Dict.keys, Dict.insert, Dict.get?, Dict.getD, Dict.hasKey,
    pyMax, pyMaxI]
  norm_num

/-! ## Unfolding equations and bounds for the scorer methods -/

theorem missingScore_val (s : QualityScorer) :
    s.missingScore.1 =
      pyMax 0 (100 -
        (if s.eda.missing.isEmpty then [(0 : ℚ)]
          else s.eda.missing.values.map MissingInfo.pct).sum /
        ((if s.eda.missing.isEmpty then [(0 : ℚ)]
          else s.eda.missing.values.map MissingInfo.pct).length : ℚ)) := rfl

theorem missingScore_state (s : QualityScorer) :
    s.missingScore.2 = { s with scores := s.scores.insert "missing" s.missingScore.1 } := rfl

theorem duplicatesScore_val (s : QualityScorer) :
    s.duplicatesScore.1 =
      pyMax 0 (100 - s.eda.duplicates / ((pyMaxI 1 s.dfLen : ℤ) : ℚ) * 100 * 2) := rfl

theorem duplicatesScore_state (s : QualityScorer) :
    s.duplicatesScore.2 =
      { s with scores := s.scores.insert "duplicates" s.duplicatesScore.1 } := rfl

theorem outliersScore_val (s : QualityScorer) :
    s.outliersScore.1 =
      pyMax 0 (100 - s.eda.outliers.values.sum / ((pyMaxI 1 s.dfLen : ℤ) : ℚ) * 100 * (3 / 2)) := rfl

theorem outliersScore_state (s : QualityScorer) :
    s.outliersScore.2 =
      { s with scores := s.scores.insert "outliers" s.outliersScore.1 } := rfl

theorem balanceScore_state (s : QualityScorer) :
    s.balanceScore.2 = { s with scores := s.scores.insert "balance" 90 } := rfl

/-- The guarded denominator, as a rational, is at least 1. -/
theorem denom_cast_pos (len : ℤ) : (0 : ℚ) < ((pyMaxI 1 len : ℤ) : ℚ) := by
  rw [pyMaxI_eq_max]
  exact_mod_cast lt_max_iff.mpr (Or.inl one_pos)

theorem missingScore_val_bounds (s : QualityScorer)
    (h : ∀ kv ∈ s.eda.missing, 0 ≤ kv.2.pct) :
    0 ≤ s.missingScore.1 ∧ s.missingScore.1 ≤ 100 := by
  rw [missingScore_val, pyMax_eq_max]
  refine ⟨le_max_left 0 _, max_le (by norm_num) ?_⟩
  have hmean : (0 : ℚ) ≤
      (if s.eda.missing.isEmpty then [(0 : ℚ)]
        else s.eda.missing.values.map MissingInfo.pct).sum /
      ((if s.eda.missing.isEmpty then [(0 : ℚ)]
        else s.eda.missing.values.map MissingInfo.pct).length : ℚ) := by
    apply div_nonneg
    · split_ifs with he
      · norm_num
      · apply List.sum_nonneg
        intro x hx
        obtain ⟨mi, hmi, rfl⟩ := List.mem_map.mp hx
        obtain ⟨kv, hkv, rfl⟩ := List.mem_map.mp hmi
        exact h kv hkv
    · exact Nat.cast_nonneg _
  linarith

theorem duplicatesScore_val_bounds (s : QualityScorer)
    (h : 0 ≤ s.eda.duplicates) :
    0 ≤ s.duplicatesScore.1 ∧ s.duplicatesScore.1 ≤ 100 := by
  rw [duplicatesScore_val, pyMax_eq_max]
  refine ⟨le_max_left 0 _, max_le (by norm_num) ?_⟩
  have hpct : (0 : ℚ) ≤ s.eda.duplicates / ((pyMaxI 1 s.dfLen : ℤ) : ℚ) * 100 * 2 := by
    have := denom_cast_pos s.dfLen
    positivity
  linarith

theorem outliersScore_val_bounds (s : QualityScorer)
    (h : ∀ kv ∈ s.eda.outliers, 0 ≤ kv.2) :
    0 ≤ s.outliersScore.1 ∧ s.outliersScore.1 ≤ 100 := by
  rw [outliersScore_val, pyMax_eq_max]
  refine ⟨le_max_left 0 _, max_le (by norm_num) ?_⟩
  have hsum : (0 : ℚ) ≤ s.eda.outliers.values.sum := by
    apply List.sum_nonneg
    intro x hx
    obtain ⟨kv, hkv, rfl⟩ := List.mem_map.mp hx
    exact h kv hkv
  have hpct : (0 : ℚ) ≤ s.eda.outliers.values.sum / ((pyMaxI 1 s.dfLen : ℤ) : ℚ) * 100 * (3 / 2) := by
    have := denom_cast_pos s.dfLen
    positivity
  linarith

/-- What a successful `_validate_weights` guarantees. -/
theorem validateWeights_ok_facts (w : Dict ℚ)
    (h : QualityScorer.validateWeights w = Except.ok ()) :
    w.keys.toFinset = QualityScorer.DEFAULT_WEIGHTS.keys.toFinset ∧
    (99 / 100 ≤ w.values.sum ∧ w.values.sum ≤ 101 / 100) ∧
    (∀ v ∈ w.values, 0 ≤ v) := by
  unfold QualityScorer.validateWeights at h
  simp only [] at h
  by_cases h1 : w.keys.toFinset ≠ QualityScorer.DEFAULT_WEIGHTS.keys.toFinset
  · rw [if_pos h1] at h
    exact Except.noConfusion h
  · rw [if_neg h1] at h
    by_cases h2 : 99 / 100 ≤ w.values.sum ∧ w.values.sum ≤ 101 / 100
    · rw [if_neg (not_not_intro h2)] at h
      by_cases h3 : w.values.any (fun v => v < 0) = true
      · rw [if_pos h3] at h
        exact Except.noConfusion h
      · refine ⟨not_not.mp h1, h2, ?_⟩
        intro v hv
        by_contra hneg
        apply h3
        rw [List.any_eq_true]
        exact ⟨v, hv, by simpa using not_le.mp hneg⟩
    · rw [if_pos h2] at h
      exact Except.noConfusion h

/-- `overall_score()` on a fresh scorer: the stored scores and the returned
overall value, in closed form. -/
theorem overallScore_fresh (s : QualityScorer) (hsc : s.scores = []) :
    (QualityScorer.overallScore s).1 =
      (s.weights.keys.map
        (fun m => (freshComponents s).getD m 0 * s.weights.getD m 0)).sum ∧
    (QualityScorer.overallScore s).2.scores =
      (freshComponents s).insert "overall" (QualityScorer.overallScore s).1 := by
  unfold QualityScorer.overallScore
  simp only [hsc, missingScore_state, duplicatesScore_state, outliersScore_state,
    balanceScore_state, freshComponents]
  simp [Dict.hasKey, Dict.get?, Dict.insert, Dict.getD, missingScore_val,
    duplicatesScore_val, outliersScore_val]

/-- Every value `freshComponents` can yield through `getD` lies in [0, 100]
under the non-negativity hypotheses. -/
theorem freshComponents_getD_bounds (s : QualityScorer)
    (hm : ∀ kv ∈ s.eda.missing, 0 ≤ kv.2.pct)
    (hd : 0 ≤ s.eda.duplicates)
    (ho : ∀ kv ∈ s.eda.outliers, 0 ≤ kv.2) :
    ∀ k, 0 ≤ (freshComponents s).getD k 0 ∧ (freshComponents s).getD k 0 ≤ 100 := by
  intro k
  have h₁ := missingScore_val_bounds s hm
  have h₂ := duplicatesScore_val_bounds s hd
  have h₃ := outliersScore_val_bounds s ho
  unfold freshComponents Dict.getD
  simp only [Dict.get?]
  split_ifs <;> simp_all
  norm_num

/-! ## Claim theorems -/

/-- C6: for every EDA-results mapping, `missing_score()` returns
`max(0, 100 - mean of the pct fields over the entries of missing)`, the mean
taken as 0 when `missing` is absent or empty; with pct values `[0, 10, 20]`
it returns 90. -/
theorem missingScore_matches_spec :
    (∀ s : QualityScorer, s.missingScore.1 = missingScoreSpec s.eda) ∧
    (QualityScorer.missingScore
      ⟨exMissingEda, 100, QualityScorer.DEFAULT_WEIGHTS, []⟩).1 = 90 := by
  constructor
  · intro s
    simp only [QualityScorer.missingScore, missingScoreSpec, pyMax_eq_max]
    by_cases h : s.eda.missing.isEmpty
    · simp [h]
    · simp [h, Dict.values]
  · simp [QualityScorer.missingScore, exMissingEda, Dict.values, pyMax]
    norm_num

/-- C9: `duplicates_score()` and `outliers_score()` guard the denominator as
`max(1, row_count)`, which is always positive, and with row count 0 (or
negative) the percentage is computed against a denominator of 1. -/
theorem score_denominator_guarded :
    ∀ (eda : EDAResults) (w sc : Dict ℚ) (len : ℤ),
      0 < pyMaxI 1 len ∧
      (len ≤ 0 →
        (QualityScorer.duplicatesScore ⟨eda, len, w, sc⟩).1 =
          pyMax 0 (100 - eda.duplicates / 1 * 100 * 2) ∧
        (QualityScorer.outliersScore ⟨eda, len, w, sc⟩).1 =
          pyMax 0 (100 - eda.outliers.values.sum / 1 * 100 * (3 / 2))) := by
  intro eda w sc len
  have hpos : (0 : ℤ) < pyMaxI 1 len := by
    rw [pyMaxI_eq_max]
    exact lt_max_iff.mpr (Or.inl one_pos)
  refine ⟨hpos, fun hle => ?_⟩
  have h1 : pyMaxI 1 len = 1 := by
    unfold pyMaxI
    rw [if_neg]
    omega
  constructor
  · unfold QualityScorer.duplicatesScore
    rw [h1]
    norm_num
  · unfold QualityScorer.outliersScore
    rw [h1]
    norm_num

/-- Witness for C9 at row count 0 with 5 duplicate rows. -/
theorem score_denominator_guarded_witness :
    (0 : ℤ) < pyMaxI 1 0 ∧
    (QualityScorer.duplicatesScore ⟨⟨[], [], 5, []⟩, 0, [], []⟩).1 =
      pyMax 0 (100 - (5 : ℚ) / 1 * 100 * 2) :=
  ⟨(score_denominator_guarded ⟨[], [], 5, []⟩ [] [] 0).1,
   ((score_denominator_guarded ⟨[], [], 5, []⟩ [] [] 0).2 le_rfl).1⟩

/-- `_validate_weights` raises precisely on the spec's invalid-weights
condition. -/
theorem validateWeights_error_iff (w : Dict ℚ) :
    (∃ e, QualityScorer.validateWeights w = Except.error e) ↔ invalidWeightsSpec w := by
  have hreq : QualityScorer.DEFAULT_WEIGHTS.keys.toFinset =
      ({"missing", "duplicates", "outliers", "balance"} : Finset String) := by decide
  unfold QualityScorer.validateWeights invalidWeightsSpec
  simp only []
  by_cases h1 : w.keys.toFinset ≠ QualityScorer.DEFAULT_WEIGHTS.keys.toFinset
  · rw [if_pos h1]
    exact iff_of_true ⟨_, rfl⟩ (Or.inl (hreq ▸ h1))
  · rw [if_neg h1]
    by_cases h2 : 99 / 100 ≤ w.values.sum ∧ w.values.sum ≤ 101 / 100
    · rw [if_neg (not_not_intro h2)]
      by_cases h3 : w.values.any (fun v => v < 0) = true
      · rw [if_pos h3]
        refine iff_of_true ⟨_, rfl⟩ (Or.inr (Or.inr ?_))
        simpa using h3
      · rw [if_neg h3]
        refine iff_of_false (by simp) ?_
        rintro (hk | hs | hv)
        · exact hk ((not_not.mp h1).trans hreq)
        · exact hs h2
        · obtain ⟨v, hm, hneg⟩ := hv
          apply h3
          rw [List.any_eq_true]
          exact ⟨v, hm, by simpa using hneg⟩
    · rw [if_pos h2]
      exact iff_of_true ⟨_, rfl⟩ (Or.inr (Or.inl h2))

/-- C2: with explicit weights, construction (and likewise `set_weights`)
raises a configuration error iff the key set differs from the required four,
the sum is outside [0.99, 1.01], or a weight is negative; on every valid
weights mapping construction succeeds and `get_weights()` returns the
supplied mapping. -/
theorem make_setWeights_validation :
    ∀ (w : Dict ℚ) (eda : EDAResults) (len : ℤ) (s₀ : QualityScorer),
      ((∃ e, QualityScorer.make eda len (some w) = Except.error e) ↔
        invalidWeightsSpec w) ∧
      ((∃ e, (QualityScorer.setWeights s₀ w).2 = Except.error e) ↔
        invalidWeightsSpec w) ∧
      (¬ invalidWeightsSpec w →
        ∃ s, QualityScorer.make eda len (some w) = Except.ok s ∧
          QualityScorer.getWeights s = w) := by
  intro w eda len s₀
  rcases hv : QualityScorer.validateWeights w with e | u
  · have hinv : invalidWeightsSpec w := (validateWeights_error_iff w).mp ⟨e, hv⟩
    refine ⟨iff_of_true ⟨e, ?_⟩ hinv, iff_of_true ⟨e, ?_⟩ hinv, fun hc => absurd hinv hc⟩
    · simp only [QualityScorer.make]
      rw [hv]
    · simp only [QualityScorer.setWeights]
      rw [hv]
  · have hval : ¬ invalidWeightsSpec w := by
      intro hinv
      obtain ⟨e, he⟩ := (validateWeights_error_iff w).mpr hinv
      rw [hv] at he
      exact Except.noConfusion he
    constructor
    · refine iff_of_false ?_ hval
      rintro ⟨e, he⟩
      simp only [QualityScorer.make] at he
      rw [hv] at he
      simp at he
    constructor
    · refine iff_of_false ?_ hval
      rintro ⟨e, he⟩
      simp only [QualityScorer.setWeights] at he
      rw [hv] at he
      by_cases hov : (({ s₀ with weights := w } : QualityScorer)).scores.hasKey "overall"
      · simp [hov] at he
      · simp [hov] at he
    · intro _
      refine ⟨⟨eda, len, w, []⟩, ?_, rfl⟩
      simp only [QualityScorer.make]
      rw [hv]

/-- Witness for C2: the default weights, passed explicitly, are valid;
construction succeeds and `get_weights()` returns them. -/
theorem make_setWeights_validation_witness :
    ∃ s, QualityScorer.make exCleanEda 1 (some QualityScorer.DEFAULT_WEIGHTS) =
        Except.ok s ∧
      QualityScorer.getWeights s = QualityScorer.DEFAULT_WEIGHTS :=
  (make_setWeights_validation QualityScorer.DEFAULT_WEIGHTS exCleanEda 1
      ⟨exCleanEda, 1, QualityScorer.DEFAULT_WEIGHTS, []⟩).2.2
    (by
      unfold invalidWeightsSpec
      push_neg
      refine ⟨by decide, ?_, ?_⟩
      · norm_num [Dict.values, QualityScorer.DEFAULT_WEIGHTS]
      · intro v hv
        simp only [Dict.values, QualityScorer.DEFAULT_WEIGHTS, List.map_cons,
          List.map_nil] at hv
        fin_cases hv <;> norm_num)

/-- C4: when the new weights are invalid, `set_weights` raises the
configuration error and leaves the scorer state — in particular its scores
mapping — exactly as before, and construction raises producing no scorer. -/
theorem setWeights_failure_preserves_state :
    ∀ (s : QualityScorer) (w : Dict ℚ) (e : String),
      QualityScorer.validateWeights w = Except.error e →
      QualityScorer.setWeights s w = (s, Except.error e) ∧
      (∀ (eda : EDAResults) (len : ℤ),
        QualityScorer.make eda len (some w) = Except.error e) := by
  intro s w e hv
  constructor
  · simp only [QualityScorer.setWeights]
    rw [hv]
  · intro eda len
    simp only [QualityScorer.make]
    rw [hv]

/-- Witness for C4: setting empty weights on a scorer with a computed score
fails and returns the state unchanged. -/
theorem setWeights_failure_preserves_state_witness :
    QualityScorer.setWeights exScoredState [] =
      (exScoredState, Except.error exBadKeysMsg) :=
  (setWeights_failure_preserves_state exScoredState [] exBadKeysMsg rfl).1

/-- C8: `peek()` and `detect_types()` raise a state error (returning no
partial result) before `load()`; after a successful `load()` they succeed,
and their results depend only on the cached data, hence are deterministic. -/
theorem loader_accessors_require_load :
    ∀ (DF α : Type) (readCsv : String → DF) (head : DF → Option ℤ → α)
      (dtypes : DF → Dict String) (path : String),
      DataLoader.peek head (DataLoader.make DF path) =
        Except.error "Data not loaded yet." ∧
      DataLoader.detectTypes dtypes (DataLoader.make DF path) =
        Except.error "Data not loaded yet." ∧
      (∀ (l l' : DataLoader DF) (d : DF),
        DataLoader.load readCsv l = (d, l') →
        DataLoader.peek head l' = Except.ok (head d l'.sampleN) ∧
        DataLoader.detectTypes dtypes l' = Except.ok (dtypes d)) ∧
      (∀ l₁ l₂ : DataLoader DF, l₁.df = l₂.df → l₁.sampleN = l₂.sampleN →
        DataLoader.peek head l₁ = DataLoader.peek head l₂ ∧
        DataLoader.detectTypes dtypes l₁ = DataLoader.detectTypes dtypes l₂) := by
  intro DF α readCsv head dtypes path
  refine ⟨rfl, rfl, ?_, ?_⟩
  · intro l l' d hld
    unfold DataLoader.load at hld
    obtain ⟨hd, hl⟩ := Prod.mk.injEq .. ▸ hld
    subst hd
    subst hl
    exact ⟨rfl, rfl⟩
  · intro l₁ l₂ hdf hn
    unfold DataLoader.peek DataLoader.detectTypes
    rw [hdf, hn]
    exact ⟨rfl, rfl⟩

/-- Witness for C8 on a concrete integer-list dataframe. -/
theorem loader_accessors_require_load_witness :
    DataLoader.peek (fun (d : List ℤ) (n : Option ℤ) => d.take (n.getD 5).toNat)
        (DataLoader.make (List ℤ) "data.csv") =
      Except.error "Data not loaded yet." ∧
    DataLoader.peek (fun (d : List ℤ) (n : Option ℤ) => d.take (n.getD 5).toNat)
        ⟨"data.csv", some 5, some [1, 2, 3]⟩ = Except.ok [1, 2, 3] := by
  constructor
  · exact (loader_accessors_require_load (List ℤ) (List ℤ) (fun _ => [1, 2, 3])
      (fun d n => d.take (n.getD 5).toNat) (fun _ => []) "data.csv").1
  · exact ((loader_accessors_require_load (List ℤ) (List ℤ) (fun _ => [1, 2, 3])
      (fun d n => d.take (n.getD 5).toNat) (fun _ => []) "data.csv").2.2.1
        (DataLoader.make (List ℤ) "data.csv") ⟨"data.csv", some 5, some [1, 2, 3]⟩
        [1, 2, 3] rfl).1

/-- Counterexample for C3: on a dataset with a numeric column `age` and an
object column `name`, the numeric analyzer's results hold `age` under
`summary`, but the orchestrator's merged results do not — both analyzers use
the single top-level key `summary`, so the keys collide and the categorical
summary overwrites the numeric one. -/
theorem merged_results_drop_numeric_summary :
    ((NumericAnalyzer.runAll exNumStats exDf).getD "summary" []).hasKey "age" = true ∧
    ((mergedResults exNumStats exCatStats exDf).getD "summary" []).hasKey "age" = false ∧
    (NumericAnalyzer.runAll exNumStats exDf).keys = ["summary"] ∧
    (CategoricalAnalyzer.runAll exCatStats exDf).keys = ["summary"] := by
  refine ⟨rfl, rfl, rfl, rfl⟩

/-- C3 (amended): merging the two analyzers' results is a key union with the
categorical entries overriding the numeric ones on shared keys; since both
analyzers store everything under the single key `summary`, the merged result
equals the categorical analyzer's results, and the numeric summary statistics
are not preserved. -/
theorem merged_results_categorical_wins :
    ∀ (numStats : List ℚ → Dict CellVal) (catStats : List String → Dict CellVal)
      (df : DataFrame),
      mergedResults numStats catStats df = CategoricalAnalyzer.runAll catStats df ∧
      (mergedResults numStats catStats df).keys = ["summary"] := by
  intro ns cs df
  have h : mergedResults ns cs df = CategoricalAnalyzer.runAll cs df := by
    unfold mergedResults Dict.merge NumericAnalyzer.runAll CategoricalAnalyzer.runAll
    simp [Dict.insert]
  refine ⟨h, ?_⟩
  rw [h]
  rfl

/-- The default weights pass validation. -/
theorem default_weights_valid :
    QualityScorer.validateWeights QualityScorer.DEFAULT_WEIGHTS = Except.ok () := by
  have hni : ¬ invalidWeightsSpec QualityScorer.DEFAULT_WEIGHTS := by
    unfold invalidWeightsSpec
    push_neg
    refine ⟨by decide, ?_, ?_⟩
    · norm_num [Dict.values, QualityScorer.DEFAULT_WEIGHTS]
    · intro v hv
      simp only [Dict.values, QualityScorer.DEFAULT_WEIGHTS, List.map_cons,
        List.map_nil] at hv
      fin_cases hv <;> norm_num
  rcases h : QualityScorer.validateWeights QualityScorer.DEFAULT_WEIGHTS with e | u
  · exact absurd ((validateWeights_error_iff _).mp ⟨e, h⟩) hni
  · cases u
    rfl

/-- The weights of `exHotWeights` (sum 1.01) pass validation. -/
theorem hot_weights_valid :
    QualityScorer.validateWeights exHotWeights = Except.ok () := by
  have hni : ¬ invalidWeightsSpec exHotWeights := by
    unfold invalidWeightsSpec
    push_neg
    refine ⟨by decide, ?_, ?_⟩
    · norm_num [Dict.values, exHotWeights]
    · intro v hv
      simp only [Dict.values, exHotWeights, List.map_cons, List.map_nil] at hv
      fin_cases hv <;> norm_num
  rcases h : QualityScorer.validateWeights exHotWeights with e | u
  · exact absurd ((validateWeights_error_iff _).mp ⟨e, h⟩) hni
  · cases u
    rfl

/-- Counterexample for C1: the weights `{missing: 1.01, duplicates: 0,
outliers: 0, balance: 0}` pass validation (sum 1.01 ∈ [0.99, 1.01]), the EDA
inputs are all non-negative (no missing, no duplicates, no outliers), yet the
value stored under `'overall'` is 101 > 100. -/
theorem overall_score_exceeds_100 :
    QualityScorer.make exCleanEda 1 (some exHotWeights) =
      Except.ok ⟨exCleanEda, 1, exHotWeights, []⟩ ∧
    (QualityScorer.overallScore
        ⟨exCleanEda, 1, exHotWeights, []⟩).2.scores.getD "overall" 0 = 101 ∧
    ¬ ((101 : ℚ) ≤ 100) := by
  refine ⟨?_, ?_, by norm_num⟩
  · simp only [QualityScorer.make]
    rw [hot_weights_valid]
  · rw [(overallScore_fresh _ rfl).2, Dict.getD_insert_self,
      (overallScore_fresh _ rfl).1]
    simp [freshComponents, missingScore_val, duplicatesScore_val,
      outliersScore_val, exCleanEda, exHotWeights, Dict.keys, Dict.getD,
      Dict.get?, Dict.values, pyMax, pyMaxI]
    norm_num

/-- C1 (amended): for every fresh scorer whose weights passed validation and
whose EDA inputs are non-negative, the value stored under `'overall'` by
`overall_score()` lies in [0, 101] — the upper end is 101, not 100, because
validation admits weight sums up to 1.01 and each component score is at most
100. -/
theorem overall_score_bounds :
    ∀ s : QualityScorer,
      s.scores = [] →
      s.weights.keys.Nodup →
      QualityScorer.validateWeights s.weights = Except.ok () →
      (∀ kv ∈ s.eda.missing, 0 ≤ kv.2.pct) →
      0 ≤ s.eda.duplicates →
      (∀ kv ∈ s.eda.outliers, 0 ≤ kv.2) →
      0 ≤ (QualityScorer.overallScore s).2.scores.getD "overall" 0 ∧
      (QualityScorer.overallScore s).2.scores.getD "overall" 0 ≤ 101 := by
  intro s hsc hnd hval hm hd ho
  obtain ⟨hov, hsc2⟩ := overallScore_fresh s hsc
  rw [hsc2, Dict.getD_insert_self, hov,
    Dict.sum_over_keys s.weights hnd (fun m => (freshComponents s).getD m 0)]
  obtain ⟨hkeys, ⟨hsum1, hsum2⟩, hvals⟩ := validateWeights_ok_facts s.weights hval
  have hbnd := freshComponents_getD_bounds s hm hd ho
  constructor
  · apply List.sum_nonneg
    intro x hx
    obtain ⟨kv, hkv, rfl⟩ := List.mem_map.mp hx
    exact mul_nonneg (hbnd kv.1).1
      (hvals kv.2 (List.mem_map_of_mem Prod.snd hkv))
  · calc (s.weights.map fun kv => (freshComponents s).getD kv.1 0 * kv.2).sum
        ≤ (s.weights.map fun kv => 100 * kv.2).sum := by
          apply List.sum_le_sum
          intro kv hkv
          exact mul_le_mul_of_nonneg_right (hbnd kv.1).2
            (hvals kv.2 (List.mem_map_of_mem Prod.snd hkv))
      _ = 100 * s.weights.values.sum := by
          rw [List.sum_map_mul_left]
          rfl
      _ ≤ 100 * (101 / 100) :=
          mul_le_mul_of_nonneg_left hsum2 (by norm_num)
      _ = 101 := by norm_num

/-- Witness for C1 (amended) on the spec's test-vector EDA results with the
default weights passed explicitly. -/
theorem overall_score_bounds_witness :
    0 ≤ (QualityScorer.overallScore
        ⟨exMissingEda, 100, QualityScorer.DEFAULT_WEIGHTS, []⟩).2.scores.getD
        "overall" 0 ∧
    (QualityScorer.overallScore
        ⟨exMissingEda, 100, QualityScorer.DEFAULT_WEIGHTS, []⟩).2.scores.getD
        "overall" 0 ≤ 101 :=
  overall_score_bounds ⟨exMissingEda, 100, QualityScorer.DEFAULT_WEIGHTS, []⟩
    rfl (by decide) default_weights_valid (by decide) (by decide) (by decide)

/-- `overall_score()` on a scorer that already holds all four component
scores recomputes nothing and stores the weighted sum over the current
weights' keys. -/
theorem overallScore_all_present (s : QualityScorer)
    (h1 : s.scores.hasKey "missing" = true)
    (h2 : s.scores.hasKey "duplicates" = true)
    (h3 : s.scores.hasKey "outliers" = true)
    (h4 : s.scores.hasKey "balance" = true) :
    QualityScorer.overallScore s =
      (weightedTotal s,
       { s with scores := s.scores.insert "overall" (weightedTotal s) }) := by
  unfold QualityScorer.overallScore weightedTotal
  simp [h1, h2, h3, h4]

/-- C5: on a scorer on which `overall_score()` has already been computed (all
four component scores and `'overall'` are in the scores mapping), a
successful `set_weights(new_weights)` immediately recomputes
`scores['overall']` to the sum over the four metrics of
`scores[m] * new_weights[m]`. -/
theorem setWeights_recomputes_overall :
    ∀ (s₁ : QualityScorer) (w : Dict ℚ),
      s₁.scores.hasKey "missing" = true →
      s₁.scores.hasKey "duplicates" = true →
      s₁.scores.hasKey "outliers" = true →
      s₁.scores.hasKey "balance" = true →
      s₁.scores.hasKey "overall" = true →
      w.keys.Nodup →
      QualityScorer.validateWeights w = Except.ok () →
      (QualityScorer.setWeights s₁ w).2 = Except.ok () ∧
      ((QualityScorer.setWeights s₁ w).1).scores.getD "overall" 0 =
        (QualityScorer.DEFAULT_WEIGHTS.keys.map
          (fun m => s₁.scores.getD m 0 * w.getD m 0)).sum := by
  intro s₁ w h1 h2 h3 h4 h5 hnd hval
  have hkeys := (validateWeights_ok_facts w hval).1
  have hperm : w.keys.Perm QualityScorer.DEFAULT_WEIGHTS.keys :=
    List.perm_of_nodup_nodup_toFinset_eq hnd (by decide) hkeys
  simp only [QualityScorer.setWeights]
  rw [hval]
  have hs₂ : ({ s₁ with weights := w } : QualityScorer).scores = s₁.scores := rfl
  rw [overallScore_all_present { s₁ with weights := w }
    (by rw [hs₂]; exact h1) (by rw [hs₂]; exact h2)
    (by rw [hs₂]; exact h3) (by rw [hs₂]; exact h4)]
  simp only [hs₂, h5, if_true]
  refine ⟨trivial, ?_⟩
  rw [Dict.getD_insert_self]
  exact List.Perm.sum_eq (hperm.map _)

/-- Witness for C5: setting the sum-1.01 weights on a fully scored state. -/
theorem setWeights_recomputes_overall_witness :
    (QualityScorer.setWeights exOverallState exHotWeights).2 = Except.ok () ∧
    ((QualityScorer.setWeights exOverallState exHotWeights).1).scores.getD
        "overall" 0 =
      (QualityScorer.DEFAULT_WEIGHTS.keys.map
        (fun m => exOverallState.scores.getD m 0 * exHotWeights.getD m 0)).sum :=
  setWeights_recomputes_overall exOverallState exHotWeights rfl rfl rfl rfl rfl
    (by decide) hot_weights_valid

/-! ## Narrator sentence-shape lemmas -/

theorem head_of_append (s x : String) (c : Char) (h : s.data.head? = some c) :
    ((s ++ x) : String).data.head? = some c := by
  rw [String.data_append]
  cases hd : s.data with
  | nil =>
    rw [hd] at h
    exact absurd h (by simp)
  | cons a tl =>
    rw [hd] at h
    simp at h
    simp [h]

theorem column_head (x : String) :
    (("Column '" ++ x) : String).data.head? = some 'C' := by
  rw [String.data_append]
  have h : ("Column '" : String).data = 'C' :: ("olumn '" : String).data := rfl
  rw [h, List.cons_append]
  rfl

theorem overall_head (x : String) :
    (("Overall data quality: " ++ x) : String).data.head? = some 'O' := by
  rw [String.data_append]
  have h : ("Overall data quality: " : String).data =
      'O' :: ("verall data quality: " : String).data := rfl
  rw [h, List.cons_append]
  rfl

theorem closingText_head (q : ℚ) :
    (Narrator.closingText q).data.head? = some 'O' := by
  unfold Narrator.closingText
  repeat' apply head_of_append
  exact overall_head (fmt2 q)

theorem summaryTexts_head (d : Dict (Dict ℚ)) (t : List String)
    (h : Narrator.summaryTexts d = Except.ok t) :
    ∀ x ∈ t, x.data.head? = some 'C' := by
  induction d generalizing t with
  | nil =>
    unfold Narrator.summaryTexts at h
    simp only [Except.ok.injEq] at h
    subst h
    simp
  | cons e rest ih =>
    obtain ⟨col, metrics⟩ := e
    unfold Narrator.summaryTexts at h
    cases hm : metrics.get? "mean" with
    | none =>
      rw [hm] at h
      exact ih t h
    | some m =>
      rw [hm] at h
      cases hsd : metrics.get? "std" with
      | none =>
        rw [hsd] at h
        exact absurd h (by simp)
      | some sd =>
        rw [hsd] at h
        cases hr : Narrator.summaryTexts rest with
        | error e₂ =>
          rw [hr] at h
          exact absurd h (by simp [Except.map])
        | ok r =>
          rw [hr] at h
          simp only [Except.map, Except.ok.injEq] at h
          subst h
          intro x hx
          rcases List.mem_cons.mp hx with hx | hx
          · subst hx
            repeat' apply head_of_append
            exact column_head col
          · exact ih r hr x hx

theorem missingTexts_head (d : Dict MissingInfo) :
    ∀ x ∈ Narrator.missingTexts d, x.data.head? = some 'C' := by
  induction d with
  | nil => simp [Narrator.missingTexts]
  | cons e rest ih =>
    obtain ⟨col, info⟩ := e
    intro x hx
    unfold Narrator.missingTexts at hx
    by_cases hpos : 0 < info.missing
    · rw [if_pos hpos] at hx
      rcases List.mem_cons.mp hx with hx | hx
      · subst hx
        repeat' apply head_of_append
        exact column_head col
      · exact ih x hx
    · rw [if_neg hpos] at hx
      exact ih x hx

theorem outlierTexts_head (d : Dict ℚ) :
    ∀ x ∈ Narrator.outlierTexts d, x.data.head? = some 'C' := by
  induction d with
  | nil => simp [Narrator.outlierTexts]
  | cons e rest ih =>
    obtain ⟨col, n⟩ := e
    intro x hx
    unfold Narrator.outlierTexts at hx
    by_cases hpos : 0 < n
    · rw [if_pos hpos] at hx
      rcases List.mem_cons.mp hx with hx | hx
      · subst hx
        repeat' apply head_of_append
        exact column_head col
      · exact ih x hx
    · rw [if_neg hpos] at hx
      exact ih x hx

theorem roundHalfEven_zero_hundredths :
    roundHalfEven ((0 : ℚ) * ((10 ^ 2 : ℕ) : ℚ)) = 0 := by
  norm_num [roundHalfEven, qFloor]

theorem fmt2_zero : fmt2 0 = "0.00" := by
  unfold fmt2 fmtDec
  simp only [roundHalfEven_zero_hundredths]
  rfl

theorem verdictOf_zero : Narrator.verdictOf 0 = "Poor" := by
  norm_num [Narrator.verdictOf]

theorem closingText_zero :
    Narrator.closingText 0 = "Overall data quality: 0.00/100 — Poor." := by
  unfold Narrator.closingText
  rw [fmt2_zero, verdictOf_zero]
  rfl

/-- C7: whenever `Narrator.generate()` returns, its output has exactly one
closing sentence, placed last, reporting the overall score formatted to two
decimals and the verdict banded at 90/75/50 with the boundaries inclusive on
the upper band. -/
theorem narrator_exactly_one_closing :
    ∀ (eda : EDAResults) (scores : Dict ℚ) (t : List String),
      Narrator.generate eda scores = Except.ok t →
      (∃ body, t = body ++ [Narrator.closingText (scores.getD "overall" 0)] ∧
        ∀ x ∈ body, x ≠ Narrator.closingText (scores.getD "overall" 0)) ∧
      t.getLast? = some (Narrator.closingText (scores.getD "overall" 0)) ∧
      Narrator.closingText (scores.getD "overall" 0) =
        "Overall data quality: " ++ fmt2 (scores.getD "overall" 0) ++ "/100 — " ++
          Narrator.verdictOf (scores.getD "overall" 0) ++ "." ∧
      Narrator.verdictOf 90 = "Excellent" ∧
      Narrator.verdictOf 75 = "Good" ∧
      Narrator.verdictOf 50 = "Fair" ∧
      (∀ q : ℚ, Narrator.verdictOf q =
        if 90 ≤ q then "Excellent"
        else if 75 ≤ q then "Good"
        else if 50 ≤ q then "Fair"
        else "Poor") := by
  intro eda scores t hok
  unfold Narrator.generate at hok
  cases hs : Narrator.summaryTexts eda.summary with
  | error e =>
    rw [hs] at hok
    exact absurd hok (by simp)
  | ok sT =>
    rw [hs] at hok
    simp only [Except.ok.injEq] at hok
    subst hok
    refine ⟨⟨sT ++ Narrator.missingTexts eda.missing ++
      Narrator.outlierTexts eda.outliers, rfl, ?_⟩, by simp, rfl,
      by norm_num [Narrator.verdictOf], by norm_num [Narrator.verdictOf],
      by norm_num [Narrator.verdictOf], fun q => rfl⟩
    intro x hx
    have hhead : x.data.head? = some 'C' := by
      rcases List.mem_append.mp hx with hx1 | hx2
      · rcases List.mem_append.mp hx1 with hxa | hxb
        · exact summaryTexts_head eda.summary sT hs x hxa
        · exact missingTexts_head eda.missing x hxb
      · exact outlierTexts_head eda.outliers x hx2
    intro he
    rw [he, closingText_head] at hhead
    exact absurd hhead (by simp)

/-- Witness for C7 on empty EDA results and an overall score of 95. -/
theorem narrator_exactly_one_closing_witness :
    (∃ body, [Narrator.closingText 95] =
        body ++ [Narrator.closingText 95] ∧
      ∀ x ∈ body, x ≠ Narrator.closingText 95) ∧
    [Narrator.closingText 95].getLast? = some (Narrator.closingText 95) ∧
    Narrator.closingText 95 =
      "Overall data quality: " ++ fmt2 95 ++ "/100 — " ++
        Narrator.verdictOf 95 ++ "." ∧
    Narrator.verdictOf 90 = "Excellent" ∧
    Narrator.verdictOf 75 = "Good" ∧
    Narrator.verdictOf 50 = "Fair" ∧
    (∀ q : ℚ, Narrator.verdictOf q =
      if 90 ≤ q then "Excellent"
      else if 75 ≤ q then "Good"
      else if 50 ≤ q then "Fair"
      else "Poor") :=
  narrator_exactly_one_closing exCleanEda [("overall", 95)]
    [Narrator.closingText 95] rfl

/-- C10: a scores mapping without an `'overall'` key does not make
`Narrator.generate()` fail — success is independent of the scores mapping —
and the closing sentence reports 0.00 with the verdict `Poor`. -/
theorem narrator_defaults_missing_overall :
    ∀ (eda : EDAResults) (scores : Dict ℚ),
      scores.get? "overall" = none →
      (∀ t, Narrator.generate eda scores = Except.ok t →
        t.getLast? = some "Overall data quality: 0.00/100 — Poor.") ∧
      (∀ scores₂ : Dict ℚ, (Narrator.generate eda scores).isOk =
        (Narrator.generate eda scores₂).isOk) := by
  intro eda scores hov
  have h0 : scores.getD "overall" 0 = 0 := by
    simp [Dict.getD, hov]
  constructor
  · intro t hok
    unfold Narrator.generate at hok
    cases hs : Narrator.summaryTexts eda.summary with
    | error e =>
      rw [hs] at hok
      exact absurd hok (by simp)
    | ok sT =>
      rw [hs] at hok
      simp only [Except.ok.injEq] at hok
      subst hok
      rw [h0, closingText_zero]
      simp
  · intro s₂
    unfold Narrator.generate
    cases hs : Narrator.summaryTexts eda.summary <;> simp [Except.isOk, Except.toBool]

/-- Witness for C10: empty scores on empty EDA results. -/
theorem narrator_defaults_missing_overall_witness :
    ["Overall data quality: 0.00/100 — Poor."].getLast? =
      some "Overall data quality: 0.00/100 — Poor." ∧
    (Narrator.generate exCleanEda []).isOk =
      (Narrator.generate exCleanEda [("overall", 50)]).isOk := by
  have hgen : Narrator.generate exCleanEda [] =
      Except.ok ["Overall data quality: 0.00/100 — Poor."] := by
    have h : Narrator.generate exCleanEda [] =
        Except.ok [Narrator.closingText 0] := rfl
    rw [h, closingText_zero]
  exact ⟨(narrator_defaults_missing_overall exCleanEda [] rfl).1
      ["Overall data quality: 0.00/100 — Poor."] hgen,
    (narrator_defaults_missing_overall exCleanEda [] rfl).2 [("overall", 50)]⟩

end EDAQuality
